import Mathlib

/-!
Shallow embedding of the hero-shape particle system (src/js/heroshape.js):
a set of disc-shaped bodies in a bounded viewport, animated with friction,
wall bounce, pairwise elastic collisions and mouse repulsion.  Numbers are
modelled as real numbers; the mutable particle array is modelled as a
function `Fin n → Particle` updated index by index in the order the source
iterates.
-/

set_option maxHeartbeats 1000000

noncomputable section

namespace HeroShape

open scoped Classical

/-- PHYSICS.FRICTION from the configuration table. -/
def FRICTION : ℝ := 0.995

/-- PHYSICS.REPULSION_RADIUS from the configuration table. -/
def REPULSION_RADIUS : ℝ := 150

/-- PHYSICS.REPULSION_FORCE from the configuration table. -/
def REPULSION_FORCE : ℝ := 3

/-- PHYSICS.BOUNCE_ENERGY from the configuration table. -/
def BOUNCE_ENERGY : ℝ := 1.05

/-- PHYSICS.INITIAL_VELOCITY from the configuration table. -/
def INITIAL_VELOCITY : ℝ := 4

/-- PHYSICS.PARTICLE_COUNT from the configuration table. -/
def PARTICLE_COUNT : ℕ := 35

/-- PHYSICS.MIN_SIZE from the configuration table. -/
def MIN_SIZE : ℝ := 25

/-- PHYSICS.MAX_SIZE from the configuration table. -/
def MAX_SIZE : ℝ := 55

/-- A 2-D vector, as used for velocities, positions and the mouse point. -/
@[ext]
structure Vec where
  x : ℝ
  y : ℝ

instance : Inhabited Vec := ⟨⟨0, 0⟩⟩

/-- The physical state of one particle: fields of the `Particle` class
(the DOM element and colour are rendering-only and carry no physics). -/
@[ext]
structure Particle where
  x : ℝ
  y : ℝ
  size : ℝ
  mass : ℝ
  friction : ℝ
  velocity : Vec

instance : Inhabited Particle := ⟨⟨0, 0, 0, 0, 0, ⟨0, 0⟩⟩⟩

/-- The ambient globals read by the physics code: `containerWidth`,
`containerHeight` and the `mouse` position (absent until a mousemove). -/
structure Env where
  containerWidth : ℝ
  containerHeight : ℝ
  mouse : Option Vec

namespace utils

/-- utils.distance: Euclidean distance between two points. -/
def distance (x1 y1 x2 y2 : ℝ) : ℝ :=
  Real.sqrt ((x2 - x1) ^ 2 + (y2 - y1) ^ 2)

/-- utils.rotateVector: rotate a vector by a given angle. -/
def rotateVector (v : Vec) (angle : ℝ) : Vec :=
  ⟨v.x * Real.cos angle - v.y * Real.sin angle,
   v.x * Real.sin angle + v.y * Real.cos angle⟩

/-- utils.clamp: keep value within min/max bounds,
`Math.min(Math.max(min, value), max)`. -/
def clamp (value lo hi : ℝ) : ℝ := min (max lo value) hi

/-- `Math.atan2 y x`, the angle of the point `(x, y)`. -/
def atan2 (y x : ℝ) : ℝ := Complex.arg ⟨x, y⟩

end utils

namespace Particle

/-- Particle.clamp: keep the particle within container boundaries. -/
def clamp (W H : ℝ) (p : Particle) : Particle :=
  { p with x := utils.clamp p.x p.size (W - p.size),
           y := utils.clamp p.y p.size (H - p.size) }

/-- Particle.applyForce: add a force directly to the velocity. -/
def applyForce (forceX forceY : ℝ) (p : Particle) : Particle :=
  { p with velocity := ⟨p.velocity.x + forceX, p.velocity.y + forceY⟩ }

/-- Left-wall branch of Particle.handleWallCollisions. -/
def leftWall (p : Particle) : Particle :=
  if p.x - p.size ≤ 0 then
    { p with velocity := ⟨|p.velocity.x| * BOUNCE_ENERGY, p.velocity.y⟩,
             x := p.size }
  else p

/-- Right-wall branch of Particle.handleWallCollisions. -/
def rightWall (W : ℝ) (p : Particle) : Particle :=
  if p.x + p.size ≥ W then
    { p with velocity := ⟨-(|p.velocity.x| * BOUNCE_ENERGY), p.velocity.y⟩,
             x := W - p.size }
  else p

/-- Top-wall branch of Particle.handleWallCollisions. -/
def topWall (p : Particle) : Particle :=
  if p.y - p.size ≤ 0 then
    { p with velocity := ⟨p.velocity.x, |p.velocity.y| * BOUNCE_ENERGY⟩,
             y := p.size }
  else p

/-- Bottom-wall branch of Particle.handleWallCollisions. -/
def bottomWall (H : ℝ) (p : Particle) : Particle :=
  if p.y + p.size ≥ H then
    { p with velocity := ⟨p.velocity.x, -(|p.velocity.y| * BOUNCE_ENERGY)⟩,
             y := H - p.size }
  else p

/-- Particle.handleWallCollisions: the four wall checks run in source
order, each reading the state left by the previous one. -/
def handleWallCollisions (W H : ℝ) (p : Particle) : Particle :=
  bottomWall H (topWall (rightWall W (leftWall p)))

/-- Particle.repelFromMouse: apply the mouse repulsion force when the
mouse is present and within `(0, REPULSION_RADIUS)` of the particle. -/
def repelFromMouse (mouse : Option Vec) (p : Particle) : Particle :=
  match mouse with
  | none => p
  | some m =>
    if utils.distance p.x p.y m.x m.y < REPULSION_RADIUS ∧
        utils.distance p.x p.y m.x m.y > 0 then
      applyForce
        (Real.cos (utils.atan2 (p.y - m.y) (p.x - m.x)) *
          (((REPULSION_RADIUS - utils.distance p.x p.y m.x m.y) /
              REPULSION_RADIUS) * REPULSION_FORCE))
        (Real.sin (utils.atan2 (p.y - m.y) (p.x - m.x)) *
          (((REPULSION_RADIUS - utils.distance p.x p.y m.x m.y) /
              REPULSION_RADIUS) * REPULSION_FORCE))
        p
    else p

/-- The collision angle `-Math.atan2(other.y - this.y, other.x - this.x)`
computed in Particle.handleCollision. -/
def collisionAngle (p q : Particle) : ℝ :=
  -(utils.atan2 (q.y - p.y) (q.x - p.x))

/-- Particle.calculateCollisionVelocity: 1-D elastic collision update in
the rotated frame; the tangential (y) component is unchanged. -/
def calculateCollisionVelocity (v1 v2 : Vec) (m1 m2 : ℝ) : Vec :=
  ⟨(v1.x * (m1 - m2) + v2.x * 2 * m2) / (m1 + m2), v1.y⟩

/-- Particle.handleCollision: if the discs overlap (0 < d < r1 + r2),
rotate both velocities into the collision frame, apply the 1-D elastic
update to each, and rotate back.  Returns the pair (this, other) with
their new velocities. -/
def handleCollision (p q : Particle) : Particle × Particle :=
  if utils.distance p.x p.y q.x q.y ≤ 0 ∨
      utils.distance p.x p.y q.x q.y ≥ p.size + q.size then (p, q)
  else
    ({ p with velocity := (utils.rotateVector
          (calculateCollisionVelocity
            (utils.rotateVector p.velocity (collisionAngle p q))
            (utils.rotateVector q.velocity (collisionAngle p q))
            p.mass q.mass)
          (-(collisionAngle p q))) },
     { q with velocity := (utils.rotateVector
          (calculateCollisionVelocity
            (utils.rotateVector q.velocity (collisionAngle p q))
            (utils.rotateVector p.velocity (collisionAngle p q))
            q.mass p.mass)
          (-(collisionAngle p q))) })

/-- Particle.updatePosition: apply friction to the velocity, then advance
the position by the post-friction velocity. -/
def updatePosition (p : Particle) : Particle :=
  { p with velocity := ⟨p.velocity.x * p.friction, p.velocity.y * p.friction⟩,
           x := p.x + p.velocity.x * p.friction,
           y := p.y + p.velocity.y * p.friction }

end Particle

variable {n : ℕ}

open Particle

/-- One invocation `particles[i].handleCollision(particles[j])`: both
array slots are overwritten with the returned states. -/
def collideStep (i j : Fin n) (ps : Fin n → Particle) : Fin n → Particle :=
  Function.update (Function.update ps i (handleCollision (ps i) (ps j)).1) j
    (handleCollision (ps i) (ps j)).2

/-- The collision loop inside Particle.update: for each particle of the
array in order, skipping `this`, invoke handleCollision. -/
def collidePhase (i : Fin n) (ps : Fin n → Particle) : Fin n → Particle :=
  (List.finRange n).foldl
    (fun ps j => if j = i then ps else collideStep i j ps) ps

/-- Particle.update for the particle at index `i`: mouse repulsion, the
collision loop against all other particles, then position update and wall
collisions (updateDOM is rendering-only). -/
def update (env : Env) (ps : Fin n → Particle) (i : Fin n) :
    Fin n → Particle :=
  Function.update
    (collidePhase i (Function.update ps i (repelFromMouse env.mouse (ps i))))
    i
    (handleWallCollisions env.containerWidth env.containerHeight
      (updatePosition
        ((collidePhase i
          (Function.update ps i (repelFromMouse env.mouse (ps i)))) i)))

/-- One frame of the animation loop:
`particles.forEach((particle) => particle.update(particles))`. -/
def frame (env : Env) (ps : Fin n → Particle) : Fin n → Particle :=
  (List.finRange n).foldl (update env) ps

/-- Modelled from the spec (section 4.3 step()): a world-phased step that
first applies repulsion to every Body, then resolves every unordered pair
of Bodies once, then integrates and wall-resolves every Body.  Used to
compare the spec's claimed phase structure against the source `frame`. -/
def stepPhased (env : Env) (ps : Fin n → Particle) : Fin n → Particle :=
  fun i =>
    handleWallCollisions env.containerWidth env.containerHeight
      (updatePosition
        (((List.finRange n).foldl
            (fun ps i =>
              (List.finRange n).foldl
                (fun ps j => if i < j then collideStep i j ps else ps) ps)
            (fun k => repelFromMouse env.mouse (ps k))) i))

/-- Modelled from the amended claim: the body-sequential step, written as
explicit recursion over the iteration order: each body in turn receives
repulsion, resolves collisions against every other body, is integrated
and wall-resolved, before the next body is processed. -/
def stepSequential (env : Env) : List (Fin n) → (Fin n → Particle) →
    Fin n → Particle
  | [], ps => ps
  | i :: rest, ps =>
    stepSequential env rest
      (Function.update
        (collidePhase i
          (Function.update ps i (repelFromMouse env.mouse (ps i))))
        i
        (handleWallCollisions env.containerWidth env.containerHeight
          (updatePosition
            ((collidePhase i
              (Function.update ps i (repelFromMouse env.mouse (ps i)))) i))))

/-- The body-sequential step over the whole particle array. -/
def stepSequentialAll (env : Env) (ps : Fin n → Particle) :
    Fin n → Particle :=
  stepSequential env (List.finRange n) ps

/-- The resize handler: the stored container dimensions change and every
existing particle is clamped into the new bounds. -/
def resize (newW newH : ℝ) (ps : Fin n → Particle) : Fin n → Particle :=
  fun i => Particle.clamp newW newH (ps i)

/-- The ordered pairs `(i, j)` for which `particles[i].update` invokes
`handleCollision(particles[j])`: every `j` of the array except `i`. -/
def collisionCalls (i : Fin n) : List (Fin n × Fin n) :=
  ((List.finRange n).filter (fun j => j ≠ i)).map (fun j => (i, j))

/-- The collision loop of Particle.update, instrumented to record each
handleCollision invocation as an `(i, j)` index pair. -/
def collidePhaseTraced (i : Fin n)
    (st : (Fin n → Particle) × List (Fin n × Fin n)) :
    (Fin n → Particle) × List (Fin n × Fin n) :=
  (List.finRange n).foldl
    (fun st j =>
      if j = i then st else (collideStep i j st.1, st.2 ++ [(i, j)])) st

/-- Particle.update instrumented with the handleCollision call trace. -/
def updateTraced (env : Env)
    (st : (Fin n → Particle) × List (Fin n × Fin n)) (i : Fin n) :
    (Fin n → Particle) × List (Fin n × Fin n) :=
  ((fun ps =>
      Function.update ps i
        (handleWallCollisions env.containerWidth env.containerHeight
          (updatePosition (ps i))))
    (collidePhaseTraced i
      (Function.update st.1 i (repelFromMouse env.mouse (st.1 i)), st.2)).1,
   (collidePhaseTraced i
      (Function.update st.1 i (repelFromMouse env.mouse (st.1 i)), st.2)).2)

/-- One frame of the animation loop instrumented with the handleCollision
call trace. -/
def frameTraced (env : Env) (ps : Fin n → Particle) :
    (Fin n → Particle) × List (Fin n × Fin n) :=
  (List.finRange n).foldl (updateTraced env) (ps, [])

/-- The configuration table (PHYSICS), as a record so that spawn-time
behaviour can be stated for arbitrary, possibly invalid, configurations. -/
structure Config where
  FRICTION : ℝ
  INITIAL_VELOCITY : ℝ
  PARTICLE_COUNT : ℕ
  MIN_SIZE : ℝ
  MAX_SIZE : ℝ

/-- utils.randomSize for a configuration, with `r` the Math.random draw. -/
def randomSize (cfg : Config) (r : ℝ) : ℝ :=
  cfg.MIN_SIZE + r * (cfg.MAX_SIZE - cfg.MIN_SIZE)

/-- utils.randomPosition, with `r1 r2` the Math.random draws. -/
def randomPosition (W H size r1 r2 : ℝ) : Vec :=
  ⟨r1 * (W - 2 * size) + size, r2 * (H - 2 * size) + size⟩

/-- utils.randomVelocity, with `r1 r2` the Math.random draws. -/
def randomVelocity (cfg : Config) (r1 r2 : ℝ) : Vec :=
  ⟨(r1 - 0.5) * cfg.INITIAL_VELOCITY, (r2 - 0.5) * cfg.INITIAL_VELOCITY⟩

/-- MAX_ATTEMPTS in findValidPosition. -/
def MAX_ATTEMPTS : ℕ := 100

/-- The retry loop of findValidPosition: while attempts remain, return
the current candidate if it overlaps no existing particle, else draw a new
candidate (two random draws) and retry; when attempts are exhausted the
last candidate is returned unchecked.  `rng` is the Math.random stream and
`k` the index of the next unconsumed draw. -/
def findValidPositionGo (W H size : ℝ) (existing : List Particle)
    (rng : ℕ → ℝ) : ℕ → Vec → ℕ → Vec × ℕ
  | 0, position, k => (position, k)
  | fuel + 1, position, k =>
    if ∃ particle ∈ existing,
        utils.distance position.x position.y particle.x particle.y <
          size + particle.size then
      findValidPositionGo W H size existing rng fuel
        (randomPosition W H size (rng k) (rng (k + 1))) (k + 2)
    else (position, k)

/-- findValidPosition: draw an initial candidate, then run the bounded
retry loop. -/
def findValidPosition (W H size : ℝ) (existing : List Particle)
    (rng : ℕ → ℝ) (k : ℕ) : Vec × ℕ :=
  findValidPositionGo W H size existing rng MAX_ATTEMPTS
    (randomPosition W H size (rng k) (rng (k + 1))) (k + 2)

/-- The loop body of createParticles: one random size draw, a valid
position search, one random colour draw (physics-irrelevant but it
consumes a stream value), and the Particle constructor which sets
`mass = size * 2`, `friction = cfg.FRICTION` and draws a random velocity
(two stream values). -/
def createParticlesGo (cfg : Config) (W H : ℝ) (rng : ℕ → ℝ) :
    ℕ → List Particle → ℕ → List Particle
  | 0, acc, _ => acc
  | m + 1, acc, k =>
    createParticlesGo cfg W H rng m
      (acc ++
        [{ x := (findValidPosition W H (randomSize cfg (rng k)) acc rng
                  (k + 1)).1.x,
           y := (findValidPosition W H (randomSize cfg (rng k)) acc rng
                  (k + 1)).1.y,
           size := randomSize cfg (rng k),
           mass := randomSize cfg (rng k) * 2,
           friction := cfg.FRICTION,
           velocity := randomVelocity cfg
             (rng ((findValidPosition W H (randomSize cfg (rng k)) acc rng
                (k + 1)).2 + 1))
             (rng ((findValidPosition W H (randomSize cfg (rng k)) acc rng
                (k + 1)).2 + 2)) }])
      ((findValidPosition W H (randomSize cfg (rng k)) acc rng (k + 1)).2 + 3)

/-- createParticles: create PARTICLE_COUNT particles, appending each to
the array as in the source loop. -/
def createParticles (cfg : Config) (W H : ℝ) (rng : ℕ → ℝ) :
    List Particle :=
  createParticlesGo cfg W H rng cfg.PARTICLE_COUNT [] 0

/-- init: empty the particle list, read the container dimensions and
create the particles.  There is no configuration validation. -/
def init (cfg : Config) (W H : ℝ) (rng : ℕ → ℝ) : List Particle :=
  createParticles cfg W H rng

/-- The fields of a particle other than its velocity are the same. -/
def SameBody (p p' : Particle) : Prop :=
  p'.x = p.x ∧ p'.y = p.y ∧ p'.size = p.size ∧ p'.mass = p.mass ∧
    p'.friction = p.friction

/-- The particle's disc lies inside the `W × H` viewport. -/
def InBounds (W H : ℝ) (p : Particle) : Prop :=
  p.size ≤ p.x ∧ p.x ≤ W - p.size ∧ p.size ≤ p.y ∧ p.y ≤ H - p.size

/-- Test environment: 400 × 300 viewport, no mouse. -/
def cW : Env := ⟨400, 300, none⟩

/-- Test particle: radius 10 at (100, 100), friction 1, moving right. -/
def pA : Particle := ⟨100, 100, 10, 20, 1, ⟨1, 0⟩⟩

/-- Test particle: radius 10 at (110, 100), friction 1, at rest;
overlaps `pA`. -/
def pB : Particle := ⟨110, 100, 10, 20, 1, ⟨0, 0⟩⟩

/-- Two-particle test world containing the overlapping pair pA, pB. -/
def psAB : Fin 2 → Particle := fun i => if i = 0 then pA else pB

/-- The state of the test world after particle 0's update. -/
def psMid : Fin 2 → Particle :=
  fun i => if i = 0 then ⟨100, 100, 10, 20, 1, ⟨0, 0⟩⟩
           else ⟨110, 100, 10, 20, 1, ⟨1, 0⟩⟩

/-- The state of the test world after the full frame. -/
def psEnd : Fin 2 → Particle :=
  fun i => if i = 0 then ⟨100, 100, 10, 20, 1, ⟨1, 0⟩⟩
           else ⟨110, 100, 10, 20, 1, ⟨0, 0⟩⟩

/-- The state the spec's phased step produces on the test world. -/
def psPhased : Fin 2 → Particle :=
  fun i => if i = 0 then ⟨100, 100, 10, 20, 1, ⟨0, 0⟩⟩
           else ⟨111, 100, 10, 20, 1, ⟨1, 0⟩⟩

/-- The scenario body of the spec: radius 20 at (10, 150), velocity
(-3, 0), friction coefficient 1. -/
def pScenario : Particle := ⟨10, 150, 20, 40, 1, ⟨-3, 0⟩⟩

/-- One-particle world holding the scenario body. -/
def psScenario : Fin 1 → Particle := fun _ => pScenario

/-- Test particle for the friction step: friction coefficient 1/2. -/
def pFr : Particle := ⟨100, 100, 10, 20, 1 / 2, ⟨2, 4⟩⟩

/-- One-particle world holding the friction test body. -/
def psFr : Fin 1 → Particle := fun _ => pFr

/-- Test particle for mouse repulsion, at (30, 40). -/
def pRep : Particle := ⟨30, 40, 5, 10, 1, ⟨0, 0⟩⟩

/-- Test mouse position at the origin. -/
def mRep : Vec := ⟨0, 0⟩

/-- Test particle far outside a 100 × 80 viewport, used for the resize
claim. -/
def pRes : Particle := ⟨500, 42, 10, 20, 1, ⟨3, 4⟩⟩

/-- One-particle world holding the resize test body. -/
def psRes : Fin 1 → Particle := fun _ => pRes

/-- Three-particle test world (all slots alias pA's state). -/
def psTriple : Fin 3 → Particle := fun _ => pA

/-- An invalid configuration: MIN_SIZE exceeds MAX_SIZE. -/
def badCfg : Config :=
  { FRICTION := 0.995, INITIAL_VELOCITY := 4, PARTICLE_COUNT := 1,
    MIN_SIZE := 55, MAX_SIZE := 25 }

/-- A constant Math.random stream. -/
def rngHalf : ℕ → ℝ := fun _ => 1 / 2

/-! ### Helper lemmas: vector math -/

theorem distance_horiz (x1 y x2 : ℝ) : utils.distance x1 y x2 y = |x2 - x1| := by
  simp [utils.distance, Real.sqrt_sq_eq_abs]

theorem atan2_zero_pos (x : ℝ) (hx : 0 < x) : utils.atan2 0 x = 0 := by
  rw [utils.atan2, show (⟨x, 0⟩ : ℂ) = (x : ℂ) from Complex.ext rfl rfl]
  exact Complex.arg_ofReal_of_nonneg hx.le

theorem atan2_zero_neg (x : ℝ) (hx : x < 0) : utils.atan2 0 x = Real.pi := by
  rw [utils.atan2, show (⟨x, 0⟩ : ℂ) = (x : ℂ) from Complex.ext rfl rfl]
  exact Complex.arg_ofReal_of_neg hx

theorem cos_sin_atan2 (x y : ℝ) (h : 0 < Real.sqrt (x ^ 2 + y ^ 2)) :
    Real.cos (utils.atan2 y x) = x / Real.sqrt (x ^ 2 + y ^ 2) ∧
      Real.sin (utils.atan2 y x) = y / Real.sqrt (x ^ 2 + y ^ 2) := by
  have habs : Complex.abs ⟨x, y⟩ = Real.sqrt (x ^ 2 + y ^ 2) := by
    rw [Complex.abs_apply, Complex.normSq_mk]
    congr 1
    ring
  have hz : (⟨x, y⟩ : ℂ) ≠ 0 := by
    intro h0
    rw [h0, map_zero] at habs
    exact absurd habs.symm (ne_of_gt h)
  constructor
  · rw [utils.atan2, Complex.cos_arg hz, habs]
  · rw [utils.atan2, Complex.sin_arg, habs]

theorem rotate_zero (v : Vec) : utils.rotateVector v 0 = v := by
  ext <;> simp [utils.rotateVector]

theorem rotate_pi (v : Vec) : utils.rotateVector v Real.pi = ⟨-v.x, -v.y⟩ := by
  ext <;> simp [utils.rotateVector]

theorem rotate_neg_pi (v : Vec) :
    utils.rotateVector v (-Real.pi) = ⟨-v.x, -v.y⟩ := by
  ext <;> simp [utils.rotateVector]

theorem rotate_rotate_neg (v : Vec) (a : ℝ) :
    utils.rotateVector (utils.rotateVector v a) (-a) = v := by
  ext
  · show (v.x * Real.cos a - v.y * Real.sin a) * Real.cos (-a) -
        (v.x * Real.sin a + v.y * Real.cos a) * Real.sin (-a) = v.x
    rw [Real.cos_neg, Real.sin_neg]
    linear_combination v.x * Real.sin_sq_add_cos_sq a
  · show (v.x * Real.cos a - v.y * Real.sin a) * Real.sin (-a) +
        (v.x * Real.sin a + v.y * Real.cos a) * Real.cos (-a) = v.y
    rw [Real.cos_neg, Real.sin_neg]
    linear_combination v.y * Real.sin_sq_add_cos_sq a

theorem rotate_neg_rotate (v : Vec) (a : ℝ) :
    utils.rotateVector (utils.rotateVector v (-a)) a = v := by
  have h := rotate_rotate_neg v (-a)
  rwa [neg_neg] at h

theorem rotate_momentum_x (u w : Vec) (a m1 m2 : ℝ) :
    m1 * (utils.rotateVector u a).x + m2 * (utils.rotateVector w a).x =
      (utils.rotateVector ⟨m1 * u.x + m2 * w.x, m1 * u.y + m2 * w.y⟩ a).x := by
  simp [utils.rotateVector]
  ring

theorem rotate_momentum_y (u w : Vec) (a m1 m2 : ℝ) :
    m1 * (utils.rotateVector u a).y + m2 * (utils.rotateVector w a).y =
      (utils.rotateVector ⟨m1 * u.x + m2 * w.x, m1 * u.y + m2 * w.y⟩ a).y := by
  simp [utils.rotateVector]
  ring

theorem calcVel_momentum_x (v1 v2 : Vec) (m1 m2 : ℝ) (h : m1 + m2 ≠ 0) :
    m1 * (calculateCollisionVelocity v1 v2 m1 m2).x +
        m2 * (calculateCollisionVelocity v2 v1 m2 m1).x =
      m1 * v1.x + m2 * v2.x := by
  have h' : m2 + m1 ≠ 0 := by rwa [add_comm]
  simp only [calculateCollisionVelocity]
  field_simp
  ring

/-! ### Helper lemmas: which fields each operation can change -/

theorem sameBody_refl (p : Particle) : SameBody p p := ⟨rfl, rfl, rfl, rfl, rfl⟩

theorem sameBody_trans {p q r : Particle} (h1 : SameBody p q)
    (h2 : SameBody q r) : SameBody p r :=
  ⟨h2.1.trans h1.1, h2.2.1.trans h1.2.1, h2.2.2.1.trans h1.2.2.1,
   h2.2.2.2.1.trans h1.2.2.2.1, h2.2.2.2.2.trans h1.2.2.2.2⟩

theorem handleCollision_sameBody (p q : Particle) :
    SameBody p (handleCollision p q).1 ∧ SameBody q (handleCollision p q).2 := by
  unfold handleCollision
  split <;> exact ⟨⟨rfl, rfl, rfl, rfl, rfl⟩, ⟨rfl, rfl, rfl, rfl, rfl⟩⟩

theorem repelFromMouse_sameBody (m : Option Vec) (p : Particle) :
    SameBody p (repelFromMouse m p) := by
  cases m with
  | none => exact sameBody_refl p
  | some m =>
    rw [repelFromMouse]
    split
    · exact ⟨rfl, rfl, rfl, rfl, rfl⟩
    · exact sameBody_refl p

theorem collideStep_sameBody (i j k : Fin n) (ps : Fin n → Particle) :
    SameBody (ps k) (collideStep i j ps k) := by
  unfold collideStep
  rcases eq_or_ne k j with rfl | hkj
  · rw [Function.update_same]
    exact (handleCollision_sameBody (ps i) (ps k)).2
  · rw [Function.update_noteq hkj]
    rcases eq_or_ne k i with rfl | hki
    · rw [Function.update_same]
      exact (handleCollision_sameBody (ps k) (ps j)).1
    · rw [Function.update_noteq hki]
      exact sameBody_refl _

theorem foldl_collide_sameBody (i k : Fin n) (l : List (Fin n)) :
    ∀ ps : Fin n → Particle,
      SameBody (ps k)
        ((l.foldl (fun ps j => if j = i then ps else collideStep i j ps) ps) k) := by
  induction l with
  | nil => intro ps; exact sameBody_refl _
  | cons j l ih =>
    intro ps
    rw [List.foldl_cons]
    refine sameBody_trans ?_ (ih _)
    split
    · exact sameBody_refl _
    · exact collideStep_sameBody i j k ps

theorem collidePhase_sameBody (i k : Fin n) (ps : Fin n → Particle) :
    SameBody (ps k) (collidePhase i ps k) :=
  foldl_collide_sameBody i k (List.finRange n) ps

theorem updatePosition_size (p : Particle) : (updatePosition p).size = p.size := rfl

theorem handleWallCollisions_size (W H : ℝ) (p : Particle) :
    (handleWallCollisions W H p).size = p.size := by
  unfold handleWallCollisions bottomWall topWall rightWall leftWall
  split_ifs <;> rfl

theorem update_sameBody_ne (env : Env) (ps : Fin n → Particle) (k i : Fin n)
    (h : i ≠ k) : SameBody (ps i) (update env ps k i) := by
  unfold update
  rw [Function.update_noteq h]
  have h1 := collidePhase_sameBody k i
    (Function.update ps k (repelFromMouse env.mouse (ps k)))
  rwa [Function.update_noteq h] at h1

theorem update_size (env : Env) (ps : Fin n → Particle) (k i : Fin n) :
    (update env ps k i).size = (ps i).size := by
  rcases eq_or_ne i k with rfl | h
  · unfold update
    rw [Function.update_same, handleWallCollisions_size, updatePosition_size]
    have h1 := collidePhase_sameBody i i
      (Function.update ps i (repelFromMouse env.mouse (ps i)))
    rw [Function.update_same] at h1
    exact h1.2.2.1.trans (repelFromMouse_sameBody env.mouse (ps i)).2.2.1
  · exact (update_sameBody_ne env ps k i h).2.2.1

/-! ### Helper lemmas: wall collision bounds -/

theorem lr_wall_bounds (W : ℝ) (p : Particle) (hW : 2 * p.size ≤ W) :
    p.size ≤ (rightWall W (leftWall p)).x ∧
      (rightWall W (leftWall p)).x ≤ W - p.size ∧
      (rightWall W (leftWall p)).size = p.size ∧
      (rightWall W (leftWall p)).y = p.y := by
  unfold rightWall leftWall
  split_ifs <;> refine ⟨?_, ?_, rfl, rfl⟩ <;> (try dsimp only at *) <;> linarith

theorem tb_wall_bounds (H : ℝ) (p : Particle) (hH : 2 * p.size ≤ H) :
    p.size ≤ (bottomWall H (topWall p)).y ∧
      (bottomWall H (topWall p)).y ≤ H - p.size ∧
      (bottomWall H (topWall p)).size = p.size ∧
      (bottomWall H (topWall p)).x = p.x := by
  unfold bottomWall topWall
  split_ifs <;> refine ⟨?_, ?_, rfl, rfl⟩ <;> (try dsimp only at *) <;> linarith

theorem wall_inBounds (W H : ℝ) (p : Particle) (hW : 2 * p.size ≤ W)
    (hH : 2 * p.size ≤ H) : InBounds W H (handleWallCollisions W H p) := by
  have hlr := lr_wall_bounds W p hW
  set q := rightWall W (leftWall p) with hq
  have hH' : 2 * q.size ≤ H := by rw [hlr.2.2.1]; exact hH
  have htb := tb_wall_bounds H q hH'
  unfold handleWallCollisions
  rw [← hq]
  have hsize : (bottomWall H (topWall q)).size = p.size :=
    htb.2.2.1.trans hlr.2.2.1
  refine ⟨?_, ?_, ?_, ?_⟩
  · rw [hsize, htb.2.2.2]; exact hlr.1
  · rw [hsize, htb.2.2.2]; exact hlr.2.1
  · rw [hsize]; have := htb.1; rwa [hlr.2.2.1] at this
  · rw [hsize]; have := htb.2.1; rwa [hlr.2.2.1] at this

/-! ### Helper lemmas: the frame keeps each particle in bounds -/

theorem update_inBounds_self (env : Env) (ps : Fin n → Particle) (i : Fin n)
    (hW : 2 * (ps i).size ≤ env.containerWidth)
    (hH : 2 * (ps i).size ≤ env.containerHeight) :
    InBounds env.containerWidth env.containerHeight (update env ps i i) := by
  unfold update
  rw [Function.update_same]
  have h1 := collidePhase_sameBody i i
    (Function.update ps i (repelFromMouse env.mouse (ps i)))
  rw [Function.update_same] at h1
  have hsize :
      (collidePhase i (Function.update ps i (repelFromMouse env.mouse (ps i))) i).size
        = (ps i).size :=
    h1.2.2.1.trans (repelFromMouse_sameBody env.mouse (ps i)).2.2.1
  have hsize' :
      (updatePosition
        (collidePhase i (Function.update ps i (repelFromMouse env.mouse (ps i))) i)).size
        = (ps i).size := by
    rw [updatePosition_size]; exact hsize
  apply wall_inBounds
  · rw [hsize']; exact hW
  · rw [hsize']; exact hH

theorem inBounds_of_sameBody {W H : ℝ} {p q : Particle} (hs : SameBody p q)
    (h : InBounds W H p) : InBounds W H q := by
  obtain ⟨hx, hy, hsz, _, _⟩ := hs
  exact ⟨by rw [hx, hsz]; exact h.1, by rw [hx, hsz]; exact h.2.1,
         by rw [hy, hsz]; exact h.2.2.1, by rw [hy, hsz]; exact h.2.2.2⟩

theorem update_preserves_inBounds (env : Env) (ps : Fin n → Particle)
    (k i : Fin n)
    (h : InBounds env.containerWidth env.containerHeight (ps i)) :
    InBounds env.containerWidth env.containerHeight (update env ps k i) := by
  rcases eq_or_ne i k with rfl | hne
  · exact update_inBounds_self env ps i (by have := h.1; have := h.2.1; linarith)
      (by have := h.2.2.1; have := h.2.2.2; linarith)
  · exact inBounds_of_sameBody (update_sameBody_ne env ps k i hne) h

theorem foldl_update_preserves_inBounds (env : Env) (i : Fin n)
    (l : List (Fin n)) :
    ∀ ps : Fin n → Particle,
      InBounds env.containerWidth env.containerHeight (ps i) →
        InBounds env.containerWidth env.containerHeight
          ((l.foldl (update env) ps) i) := by
  induction l with
  | nil => intro ps h; exact h
  | cons k l ih =>
    intro ps h
    rw [List.foldl_cons]
    exact ih _ (update_preserves_inBounds env ps k i h)

theorem foldl_update_size (env : Env) (i : Fin n) (l : List (Fin n)) :
    ∀ ps : Fin n → Particle, ((l.foldl (update env) ps) i).size = (ps i).size := by
  induction l with
  | nil => intro ps; rfl
  | cons k l ih =>
    intro ps
    rw [List.foldl_cons, ih]
    exact update_size env ps k i

theorem foldl_update_establishes_inBounds (env : Env) (i : Fin n)
    (l : List (Fin n)) :
    ∀ ps : Fin n → Particle, i ∈ l →
      2 * (ps i).size ≤ env.containerWidth →
      2 * (ps i).size ≤ env.containerHeight →
        InBounds env.containerWidth env.containerHeight
          ((l.foldl (update env) ps) i) := by
  induction l with
  | nil => intro ps h; exact absurd h (List.not_mem_nil i)
  | cons k l ih =>
    intro ps hmem hW hH
    rw [List.foldl_cons]
    rcases eq_or_ne k i with rfl | hne
    · exact foldl_update_preserves_inBounds env k l _
        (update_inBounds_self env ps k hW hH)
    · have hmem' : i ∈ l := by
        rcases List.mem_cons.1 hmem with h | h
        · exact absurd h.symm hne
        · exact h
      refine ih _ hmem' ?_ ?_ <;> rw [update_size] <;> assumption

/-- Claim C1: for every particle whose diameter fits in the viewport,
after each full step (one frame of the animation loop, whatever the input
state) its position satisfies `radius ≤ x ≤ width - radius` and
`radius ≤ y ≤ height - radius`; the radius itself is unchanged by the
frame, so the bound is an invariant of the animation loop. -/
theorem frame_keeps_particle_in_bounds (env : Env) (ps : Fin n → Particle)
    (i : Fin n) (hW : 2 * (ps i).size ≤ env.containerWidth)
    (hH : 2 * (ps i).size ≤ env.containerHeight) :
    (frame env ps i).size = (ps i).size ∧
    (frame env ps i).size ≤ (frame env ps i).x ∧
    (frame env ps i).x ≤ env.containerWidth - (frame env ps i).size ∧
    (frame env ps i).size ≤ (frame env ps i).y ∧
    (frame env ps i).y ≤ env.containerHeight - (frame env ps i).size := by
  have hsz : (frame env ps i).size = (ps i).size :=
    foldl_update_size env i (List.finRange n) ps
  have hib := foldl_update_establishes_inBounds env i (List.finRange n) ps
    (List.mem_finRange i) hW hH
  exact ⟨hsz, hib.1, hib.2.1, hib.2.2.1, hib.2.2.2⟩

/-- Witness for C1: the 400 × 300 scenario world with a radius-20 body. -/
theorem frame_keeps_particle_in_bounds_witness :
    2 * (psScenario 0).size ≤ cW.containerWidth ∧
    2 * (psScenario 0).size ≤ cW.containerHeight ∧
    ((frame cW psScenario 0).size = (psScenario 0).size ∧
     (frame cW psScenario 0).size ≤ (frame cW psScenario 0).x ∧
     (frame cW psScenario 0).x ≤
       cW.containerWidth - (frame cW psScenario 0).size ∧
     (frame cW psScenario 0).size ≤ (frame cW psScenario 0).y ∧
     (frame cW psScenario 0).y ≤
       cW.containerHeight - (frame cW psScenario 0).size) := by
  have h1 : 2 * (psScenario 0).size ≤ cW.containerWidth := by
    norm_num [psScenario, pScenario, cW]
  have h2 : 2 * (psScenario 0).size ≤ cW.containerHeight := by
    norm_num [psScenario, pScenario, cW]
  exact ⟨h1, h2, frame_keeps_particle_in_bounds cW psScenario 0 h1 h2⟩

/-! ### Helper lemmas: the left-wall bounce -/

theorem tb_wall_preserves_x (H : ℝ) (p : Particle) :
    (bottomWall H (topWall p)).x = p.x ∧
      (bottomWall H (topWall p)).velocity.x = p.velocity.x := by
  unfold bottomWall topWall
  split_ifs <;> exact ⟨rfl, rfl⟩

/-- Claim C5 (general part): a particle whose leading edge has reached or
crossed the left boundary with negative x-velocity leaves wall resolution
with position x exactly `radius` and with positive x-velocity of magnitude
`|vx| * BOUNCE_ENERGY` (provided its diameter is smaller than the
viewport, so the right-wall branch cannot also fire). -/
theorem left_wall_bounce (W H : ℝ) (p : Particle)
    (hx : p.x - p.size ≤ 0) (hv : p.velocity.x < 0) (hW : 2 * p.size < W) :
    (handleWallCollisions W H p).x = p.size ∧
    (handleWallCollisions W H p).velocity.x = |p.velocity.x| * BOUNCE_ENERGY ∧
    0 < (handleWallCollisions W H p).velocity.x := by
  unfold handleWallCollisions
  rw [leftWall, if_pos hx]
  rw [rightWall, if_neg ?hno]
  case hno => dsimp only; intro hcon; linarith
  have htb := tb_wall_preserves_x H
    { p with velocity := ⟨|p.velocity.x| * BOUNCE_ENERGY, p.velocity.y⟩,
             x := p.size }
  refine ⟨htb.1, htb.2, ?_⟩
  rw [htb.2]
  have hvp : 0 < |p.velocity.x| := abs_pos.mpr (ne_of_lt hv)
  have hbe : 0 < BOUNCE_ENERGY := by norm_num [BOUNCE_ENERGY]
  exact mul_pos hvp hbe

/-! ### Concrete evaluation of the one-particle scenario frame -/

theorem collidePhase_single (ps : Fin 1 → Particle) :
    collidePhase 0 ps = ps := by
  unfold collidePhase
  rw [show List.finRange 1 = [0] from by decide]
  simp

theorem frame_single (env : Env) (hm : env.mouse = none)
    (ps : Fin 1 → Particle) :
    frame env ps 0 =
      handleWallCollisions env.containerWidth env.containerHeight
        (updatePosition (ps 0)) := by
  unfold frame update
  rw [show List.finRange 1 = [0] from by decide]
  rw [List.foldl_cons, List.foldl_nil, hm]
  rw [show repelFromMouse none (ps 0) = ps 0 from rfl,
    Function.update_eq_self 0 ps, collidePhase_single, Function.update_same]

/-- Witness for C5: the spec scenario.  Viewport 400 × 300, one body of
radius 20 at (10, 150) with velocity (-3, 0), friction coefficient 1, no
pointer; after one step x = 20 and velocity.x = 3 * BOUNCE_ENERGY. -/
theorem left_wall_bounce_witness :
    (updatePosition pScenario).x - (updatePosition pScenario).size ≤ 0 ∧
    (updatePosition pScenario).velocity.x < 0 ∧
    2 * (updatePosition pScenario).size < cW.containerWidth ∧
    (frame cW psScenario 0).x = 20 ∧
    (frame cW psScenario 0).velocity.x = 3 * BOUNCE_ENERGY := by
  have hmv : updatePosition pScenario = ⟨7, 150, 20, 40, 1, ⟨-3, 0⟩⟩ := by
    ext <;> norm_num [updatePosition, pScenario]
  have hfr : frame cW psScenario 0 =
      handleWallCollisions cW.containerWidth cW.containerHeight
        (updatePosition (psScenario 0)) := frame_single cW rfl psScenario
  have hsc : psScenario 0 = pScenario := rfl
  have hb := left_wall_bounce cW.containerWidth cW.containerHeight
    (updatePosition pScenario) (by rw [hmv]; norm_num) (by rw [hmv]; norm_num)
    (by rw [hmv]; norm_num [cW])
  refine ⟨by rw [hmv]; norm_num, by rw [hmv]; norm_num,
    by rw [hmv]; norm_num [cW], ?_, ?_⟩
  · rw [hfr, hsc, hb.1, hmv]
  · rw [hfr, hsc, hb.2.1, hmv]
    norm_num

/-! ### The elastic collision (C3) -/

/-- Claim C3: when two particles overlap (0 < d < r1 + r2), a single
handleCollision applies the standard 1-D elastic-collision update in the
frame rotated by the collision angle (tangential component unchanged, as
calculateCollisionVelocity keeps y), and total momentum — both the
component along the collision axis and the full vector, hence both world
components — is preserved. -/
theorem handleCollision_elastic (p q : Particle)
    (hd0 : 0 < utils.distance p.x p.y q.x q.y)
    (hd1 : utils.distance p.x p.y q.x q.y < p.size + q.size)
    (hm1 : 0 < p.mass) (hm2 : 0 < q.mass) :
    utils.rotateVector (handleCollision p q).1.velocity (collisionAngle p q) =
      calculateCollisionVelocity
        (utils.rotateVector p.velocity (collisionAngle p q))
        (utils.rotateVector q.velocity (collisionAngle p q)) p.mass q.mass ∧
    utils.rotateVector (handleCollision p q).2.velocity (collisionAngle p q) =
      calculateCollisionVelocity
        (utils.rotateVector q.velocity (collisionAngle p q))
        (utils.rotateVector p.velocity (collisionAngle p q)) q.mass p.mass ∧
    p.mass * (handleCollision p q).1.velocity.x +
        q.mass * (handleCollision p q).2.velocity.x =
      p.mass * p.velocity.x + q.mass * q.velocity.x ∧
    p.mass * (handleCollision p q).1.velocity.y +
        q.mass * (handleCollision p q).2.velocity.y =
      p.mass * p.velocity.y + q.mass * q.velocity.y := by
  have hM : p.mass + q.mass ≠ 0 := ne_of_gt (add_pos hm1 hm2)
  have hcond : ¬(utils.distance p.x p.y q.x q.y ≤ 0 ∨
      utils.distance p.x p.y q.x q.y ≥ p.size + q.size) := by
    rintro (h | h) <;> linarith
  have hHC : handleCollision p q =
      ({ p with velocity := (utils.rotateVector
            (calculateCollisionVelocity
              (utils.rotateVector p.velocity (collisionAngle p q))
              (utils.rotateVector q.velocity (collisionAngle p q))
              p.mass q.mass)
            (-(collisionAngle p q))) },
       { q with velocity := (utils.rotateVector
            (calculateCollisionVelocity
              (utils.rotateVector q.velocity (collisionAngle p q))
              (utils.rotateVector p.velocity (collisionAngle p q))
              q.mass p.mass)
            (-(collisionAngle p q))) }) := by
    unfold handleCollision
    rw [if_neg hcond]
  rw [hHC]
  dsimp only
  refine ⟨rotate_neg_rotate _ _, rotate_neg_rotate _ _, ?_, ?_⟩
  · rw [rotate_momentum_x _ _ (-(collisionAngle p q)) p.mass q.mass]
    rw [calcVel_momentum_x _ _ p.mass q.mass hM]
    rw [show p.mass *
        (calculateCollisionVelocity
          (utils.rotateVector p.velocity (collisionAngle p q))
          (utils.rotateVector q.velocity (collisionAngle p q))
          p.mass q.mass).y +
        q.mass *
        (calculateCollisionVelocity
          (utils.rotateVector q.velocity (collisionAngle p q))
          (utils.rotateVector p.velocity (collisionAngle p q))
          q.mass p.mass).y =
      p.mass * (utils.rotateVector p.velocity (collisionAngle p q)).y +
        q.mass * (utils.rotateVector q.velocity (collisionAngle p q)).y from rfl]
    rw [show (⟨p.mass * (utils.rotateVector p.velocity (collisionAngle p q)).x +
          q.mass * (utils.rotateVector q.velocity (collisionAngle p q)).x,
        p.mass * (utils.rotateVector p.velocity (collisionAngle p q)).y +
          q.mass * (utils.rotateVector q.velocity (collisionAngle p q)).y⟩ : Vec) =
        utils.rotateVector
          ⟨p.mass * p.velocity.x + q.mass * q.velocity.x,
           p.mass * p.velocity.y + q.mass * q.velocity.y⟩
          (collisionAngle p q) from by
      ext
      · exact rotate_momentum_x p.velocity q.velocity (collisionAngle p q)
          p.mass q.mass
      · exact rotate_momentum_y p.velocity q.velocity (collisionAngle p q)
          p.mass q.mass]
    rw [rotate_rotate_neg]
  · rw [rotate_momentum_y _ _ (-(collisionAngle p q)) p.mass q.mass]
    rw [calcVel_momentum_x _ _ p.mass q.mass hM]
    rw [show p.mass *
        (calculateCollisionVelocity
          (utils.rotateVector p.velocity (collisionAngle p q))
          (utils.rotateVector q.velocity (collisionAngle p q))
          p.mass q.mass).y +
        q.mass *
        (calculateCollisionVelocity
          (utils.rotateVector q.velocity (collisionAngle p q))
          (utils.rotateVector p.velocity (collisionAngle p q))
          q.mass p.mass).y =
      p.mass * (utils.rotateVector p.velocity (collisionAngle p q)).y +
        q.mass * (utils.rotateVector q.velocity (collisionAngle p q)).y from rfl]
    rw [show (⟨p.mass * (utils.rotateVector p.velocity (collisionAngle p q)).x +
          q.mass * (utils.rotateVector q.velocity (collisionAngle p q)).x,
        p.mass * (utils.rotateVector p.velocity (collisionAngle p q)).y +
          q.mass * (utils.rotateVector q.velocity (collisionAngle p q)).y⟩ : Vec) =
        utils.rotateVector
          ⟨p.mass * p.velocity.x + q.mass * q.velocity.x,
           p.mass * p.velocity.y + q.mass * q.velocity.y⟩
          (collisionAngle p q) from by
      ext
      · exact rotate_momentum_x p.velocity q.velocity (collisionAngle p q)
          p.mass q.mass
      · exact rotate_momentum_y p.velocity q.velocity (collisionAngle p q)
          p.mass q.mass]
    rw [rotate_rotate_neg]

/-- Witness for C3: the overlapping equal-mass pair pA, pB. -/
theorem handleCollision_elastic_witness :
    0 < utils.distance pA.x pA.y pB.x pB.y ∧
    utils.distance pA.x pA.y pB.x pB.y < pA.size + pB.size ∧
    0 < pA.mass ∧ 0 < pB.mass ∧
    pA.mass * (handleCollision pA pB).1.velocity.x +
        pB.mass * (handleCollision pA pB).2.velocity.x =
      pA.mass * pA.velocity.x + pB.mass * pB.velocity.x := by
  have hd : utils.distance pA.x pA.y pB.x pB.y = 10 := by
    show utils.distance 100 100 110 100 = 10
    rw [distance_horiz]
    norm_num
  have h1 : 0 < utils.distance pA.x pA.y pB.x pB.y := by rw [hd]; norm_num
  have h2 : utils.distance pA.x pA.y pB.x pB.y < pA.size + pB.size := by
    rw [hd]; norm_num [pA, pB]
  have h3 : 0 < pA.mass := by norm_num [pA]
  have h4 : 0 < pB.mass := by norm_num [pB]
  exact ⟨h1, h2, h3, h4, (handleCollision_elastic pA pB h1 h2 h3 h4).2.2.1⟩

/-! ### The friction-only step (C6) -/

theorem collideStep_noop (i j : Fin n) (ps : Fin n → Particle)
    (hg : utils.distance (ps i).x (ps i).y (ps j).x (ps j).y ≤ 0 ∨
      utils.distance (ps i).x (ps i).y (ps j).x (ps j).y ≥
        (ps i).size + (ps j).size) :
    collideStep i j ps = ps := by
  unfold collideStep handleCollision
  rw [if_pos hg]
  dsimp only
  rw [Function.update_eq_self, Function.update_eq_self]

theorem collidePhase_noop (i : Fin n) (ps : Fin n → Particle)
    (h : ∀ j : Fin n, j ≠ i →
      utils.distance (ps i).x (ps i).y (ps j).x (ps j).y ≤ 0 ∨
      utils.distance (ps i).x (ps i).y (ps j).x (ps j).y ≥
        (ps i).size + (ps j).size) :
    collidePhase i ps = ps := by
  unfold collidePhase
  generalize List.finRange n = l
  induction l with
  | nil => rfl
  | cons j l ih =>
    rw [List.foldl_cons]
    rcases eq_or_ne j i with rfl | hne
    · rw [if_pos rfl]; exact ih
    · rw [if_neg hne, collideStep_noop i j ps (h j hne)]; exact ih

theorem wall_noop (W H : ℝ) (p : Particle)
    (k1 : ¬(p.x - p.size ≤ 0)) (k2 : ¬(p.x + p.size ≥ W))
    (k3 : ¬(p.y - p.size ≤ 0)) (k4 : ¬(p.y + p.size ≥ H)) :
    handleWallCollisions W H p = p := by
  unfold handleWallCollisions leftWall rightWall topWall bottomWall
  rw [if_neg k1, if_neg k2, if_neg k3, if_neg k4]

/-- Claim C6: a particle that receives no repulsion (no pointer), no
particle collision (every other particle is non-overlapping) and no wall
contact during its step ends the step with each velocity component
multiplied by exactly its friction coefficient, and with its position
advanced by the post-friction velocity. -/
theorem update_friction_only (env : Env) (ps : Fin n → Particle) (i : Fin n)
    (hm : env.mouse = none)
    (hcol : ∀ j : Fin n, j ≠ i →
      utils.distance (ps i).x (ps i).y (ps j).x (ps j).y ≤ 0 ∨
      utils.distance (ps i).x (ps i).y (ps j).x (ps j).y ≥
        (ps i).size + (ps j).size)
    (h1 : 0 < (ps i).x + (ps i).velocity.x * (ps i).friction - (ps i).size)
    (h2 : (ps i).x + (ps i).velocity.x * (ps i).friction + (ps i).size <
      env.containerWidth)
    (h3 : 0 < (ps i).y + (ps i).velocity.y * (ps i).friction - (ps i).size)
    (h4 : (ps i).y + (ps i).velocity.y * (ps i).friction + (ps i).size <
      env.containerHeight) :
    (update env ps i i).velocity.x = (ps i).velocity.x * (ps i).friction ∧
    (update env ps i i).velocity.y = (ps i).velocity.y * (ps i).friction ∧
    (update env ps i i).x = (ps i).x + (ps i).velocity.x * (ps i).friction ∧
    (update env ps i i).y = (ps i).y + (ps i).velocity.y * (ps i).friction := by
  unfold update
  rw [hm, show repelFromMouse none (ps i) = ps i from rfl,
    Function.update_eq_self i ps, collidePhase_noop i ps hcol,
    Function.update_same]
  rw [wall_noop env.containerWidth env.containerHeight (updatePosition (ps i))
    (not_le.mpr h1) (not_le.mpr h2) (not_le.mpr h3) (not_le.mpr h4)]
  exact ⟨rfl, rfl, rfl, rfl⟩

/-- Witness for C6: a single body with friction coefficient 1/2 and
velocity (2, 4) well inside the 400 × 300 viewport. -/
theorem update_friction_only_witness :
    cW.mouse = none ∧
    0 < (psFr 0).x + (psFr 0).velocity.x * (psFr 0).friction - (psFr 0).size ∧
    (psFr 0).x + (psFr 0).velocity.x * (psFr 0).friction + (psFr 0).size <
      cW.containerWidth ∧
    0 < (psFr 0).y + (psFr 0).velocity.y * (psFr 0).friction - (psFr 0).size ∧
    (psFr 0).y + (psFr 0).velocity.y * (psFr 0).friction + (psFr 0).size <
      cW.containerHeight ∧
    (update cW psFr 0 0).velocity.x = 1 ∧
    (update cW psFr 0 0).velocity.y = 2 ∧
    (update cW psFr 0 0).x = 101 ∧
    (update cW psFr 0 0).y = 102 := by
  have hcolV : ∀ j : Fin 1, j ≠ 0 →
      utils.distance (psFr 0).x (psFr 0).y (psFr j).x (psFr j).y ≤ 0 ∨
      utils.distance (psFr 0).x (psFr 0).y (psFr j).x (psFr j).y ≥
        (psFr 0).size + (psFr j).size := by
    intro j hj
    exact absurd (Subsingleton.elim j 0) hj
  have h1 : 0 < (psFr 0).x + (psFr 0).velocity.x * (psFr 0).friction -
      (psFr 0).size := by norm_num [psFr, pFr]
  have h2 : (psFr 0).x + (psFr 0).velocity.x * (psFr 0).friction +
      (psFr 0).size < cW.containerWidth := by norm_num [psFr, pFr, cW]
  have h3 : 0 < (psFr 0).y + (psFr 0).velocity.y * (psFr 0).friction -
      (psFr 0).size := by norm_num [psFr, pFr]
  have h4 : (psFr 0).y + (psFr 0).velocity.y * (psFr 0).friction +
      (psFr 0).size < cW.containerHeight := by norm_num [psFr, pFr, cW]
  have h := update_friction_only cW psFr 0 rfl hcolV h1 h2 h3 h4
  refine ⟨rfl, h1, h2, h3, h4, ?_, ?_, ?_, ?_⟩
  · rw [h.1]; norm_num [psFr, pFr]
  · rw [h.2.1]; norm_num [psFr, pFr]
  · rw [h.2.2.1]; norm_num [psFr, pFr]
  · rw [h.2.2.2]; norm_num [psFr, pFr]

/-! ### Mouse repulsion (C7) -/

/-- Claim C7: repelFromMouse is the identity when the pointer is absent or
the distance d to it lies outside (0, REPULSION_RADIUS); when
0 < d < REPULSION_RADIUS it adds to the velocity exactly the vector of
magnitude ((REPULSION_RADIUS - d)/REPULSION_RADIUS) * REPULSION_FORCE
directed along the unit vector from the pointer toward the particle. -/
theorem repelFromMouse_characterization (p : Particle) :
    repelFromMouse none p = p ∧
    ∀ m : Vec,
      ((0 < utils.distance p.x p.y m.x m.y ∧
          utils.distance p.x p.y m.x m.y < REPULSION_RADIUS) →
        repelFromMouse (some m) p = { p with velocity :=
          (⟨p.velocity.x + (p.x - m.x) / utils.distance p.x p.y m.x m.y *
              (((REPULSION_RADIUS - utils.distance p.x p.y m.x m.y) /
                  REPULSION_RADIUS) * REPULSION_FORCE),
            p.velocity.y + (p.y - m.y) / utils.distance p.x p.y m.x m.y *
              (((REPULSION_RADIUS - utils.distance p.x p.y m.x m.y) /
                  REPULSION_RADIUS) * REPULSION_FORCE)⟩ : Vec) }) ∧
      (¬(0 < utils.distance p.x p.y m.x m.y ∧
          utils.distance p.x p.y m.x m.y < REPULSION_RADIUS) →
        repelFromMouse (some m) p = p) := by
  refine ⟨rfl, fun m => ⟨?_, ?_⟩⟩
  · rintro ⟨hd0, hdR⟩
    have hd' : Real.sqrt ((p.x - m.x) ^ 2 + (p.y - m.y) ^ 2) =
        utils.distance p.x p.y m.x m.y := by
      rw [utils.distance]
      congr 1
      ring
    have hpos : 0 < Real.sqrt ((p.x - m.x) ^ 2 + (p.y - m.y) ^ 2) := by
      rw [hd']; exact hd0
    have hcs := cos_sin_atan2 (p.x - m.x) (p.y - m.y) hpos
    show (if _ then _ else _) = _
    rw [if_pos ⟨hdR, hd0⟩]
    unfold applyForce
    rw [hcs.1, hcs.2, hd']
  · intro hneg
    show (if _ then _ else _) = _
    rw [if_neg fun hc => hneg ⟨hc.2, hc.1⟩]

/-- Witness for C7: particle at (30, 40), pointer at the origin, distance
50; the added velocity is (6/5, 8/5). -/
theorem repelFromMouse_characterization_witness :
    0 < utils.distance pRep.x pRep.y mRep.x mRep.y ∧
    utils.distance pRep.x pRep.y mRep.x mRep.y < REPULSION_RADIUS ∧
    (repelFromMouse (some mRep) pRep).velocity.x = 6 / 5 ∧
    (repelFromMouse (some mRep) pRep).velocity.y = 8 / 5 := by
  have hd : utils.distance pRep.x pRep.y mRep.x mRep.y = 50 := by
    show utils.distance 30 40 0 0 = 50
    rw [utils.distance, show ((0:ℝ) - 30) ^ 2 + ((0:ℝ) - 40) ^ 2 = 50 ^ 2 by
      norm_num]
    rw [Real.sqrt_sq (by norm_num : (0:ℝ) ≤ 50)]
  have h0 : 0 < utils.distance pRep.x pRep.y mRep.x mRep.y := by
    rw [hd]; norm_num
  have hR : utils.distance pRep.x pRep.y mRep.x mRep.y < REPULSION_RADIUS := by
    rw [hd]; norm_num [REPULSION_RADIUS]
  have h := ((repelFromMouse_characterization pRep).2 mRep).1 ⟨h0, hR⟩
  refine ⟨h0, hR, ?_, ?_⟩
  · rw [h]
    show pRep.velocity.x + (pRep.x - mRep.x) /
        utils.distance pRep.x pRep.y mRep.x mRep.y *
        (((REPULSION_RADIUS - utils.distance pRep.x pRep.y mRep.x mRep.y) /
            REPULSION_RADIUS) * REPULSION_FORCE) = 6 / 5
    rw [hd]
    norm_num [pRep, mRep, REPULSION_RADIUS, REPULSION_FORCE]
  · rw [h]
    show pRep.velocity.y + (pRep.y - mRep.y) /
        utils.distance pRep.x pRep.y mRep.x mRep.y *
        (((REPULSION_RADIUS - utils.distance pRep.x pRep.y mRep.x mRep.y) /
            REPULSION_RADIUS) * REPULSION_FORCE) = 8 / 5
    rw [hd]
    norm_num [pRep, mRep, REPULSION_RADIUS, REPULSION_FORCE]

/-! ### Resize (C8) -/

/-- Claim C8: after a viewport resize every particle's position is
clamped per axis into [radius, newDimension - radius] (and is unchanged
when already inside), while its velocity, radius, mass and friction are
exactly as before. -/
theorem resize_clamps (newW newH : ℝ) (ps : Fin n → Particle) (i : Fin n)
    (hW : 2 * (ps i).size ≤ newW) (hH : 2 * (ps i).size ≤ newH) :
    (ps i).size ≤ (resize newW newH ps i).x ∧
    (resize newW newH ps i).x ≤ newW - (ps i).size ∧
    (ps i).size ≤ (resize newW newH ps i).y ∧
    (resize newW newH ps i).y ≤ newH - (ps i).size ∧
    ((ps i).size ≤ (ps i).x ∧ (ps i).x ≤ newW - (ps i).size →
      (resize newW newH ps i).x = (ps i).x) ∧
    ((ps i).size ≤ (ps i).y ∧ (ps i).y ≤ newH - (ps i).size →
      (resize newW newH ps i).y = (ps i).y) ∧
    (resize newW newH ps i).velocity = (ps i).velocity ∧
    (resize newW newH ps i).size = (ps i).size ∧
    (resize newW newH ps i).mass = (ps i).mass ∧
    (resize newW newH ps i).friction = (ps i).friction := by
  unfold resize Particle.clamp utils.clamp
  dsimp only
  refine ⟨?_, ?_, ?_, ?_, ?_, ?_, rfl, rfl, rfl, rfl⟩
  · exact le_min (le_max_left _ _) (by linarith)
  · exact min_le_right _ _
  · exact le_min (le_max_left _ _) (by linarith)
  · exact min_le_right _ _
  · rintro ⟨ha, hb⟩
    rw [max_eq_right ha, min_eq_left hb]
  · rintro ⟨ha, hb⟩
    rw [max_eq_right ha, min_eq_left hb]

/-- Witness for C8: a body at (500, 42) after a resize to 100 × 80 is
clamped to (90, 42), with velocity and the other fields untouched. -/
theorem resize_clamps_witness :
    2 * (psRes 0).size ≤ 100 ∧ 2 * (psRes 0).size ≤ 80 ∧
    (psRes 0).size ≤ (resize 100 80 psRes 0).x ∧
    (resize 100 80 psRes 0).x ≤ 100 - (psRes 0).size ∧
    (resize 100 80 psRes 0).velocity = (psRes 0).velocity ∧
    (resize 100 80 psRes 0).x = 90 ∧
    (resize 100 80 psRes 0).y = 42 := by
  have hW : 2 * (psRes 0).size ≤ 100 := by norm_num [psRes, pRes]
  have hH : 2 * (psRes 0).size ≤ 80 := by norm_num [psRes, pRes]
  have h := resize_clamps 100 80 psRes 0 hW hH
  refine ⟨hW, hH, h.1, h.2.1, h.2.2.2.2.2.2.1, ?_, ?_⟩
  · show utils.clamp (psRes 0).x (psRes 0).size (100 - (psRes 0).size) = 90
    norm_num [psRes, pRes, utils.clamp]
  · show utils.clamp (psRes 0).y (psRes 0).size (80 - (psRes 0).size) = 42
    norm_num [psRes, pRes, utils.clamp]

/-! ### Frame effect of handleCollision (C10) -/

/-- Claim C10: handleCollision can change at most the two particles'
velocities — positions, radii, masses and friction of both are unchanged
(so overlapping particles are never separated positionally) — and a
handleCollision invocation on slots i, j of the array leaves every other
slot k exactly as it was. -/
theorem handleCollision_frame_effect :
    (∀ p q : Particle,
      (handleCollision p q).1.x = p.x ∧ (handleCollision p q).1.y = p.y ∧
      (handleCollision p q).1.size = p.size ∧
      (handleCollision p q).1.mass = p.mass ∧
      (handleCollision p q).1.friction = p.friction ∧
      (handleCollision p q).2.x = q.x ∧ (handleCollision p q).2.y = q.y ∧
      (handleCollision p q).2.size = q.size ∧
      (handleCollision p q).2.mass = q.mass ∧
      (handleCollision p q).2.friction = q.friction) ∧
    ∀ (m : ℕ) (ps : Fin m → Particle) (i j k : Fin m),
      k ≠ i → k ≠ j → collideStep i j ps k = ps k := by
  constructor
  · intro p q
    obtain ⟨h1, h2⟩ := handleCollision_sameBody p q
    exact ⟨h1.1, h1.2.1, h1.2.2.1, h1.2.2.2.1, h1.2.2.2.2,
           h2.1, h2.2.1, h2.2.2.1, h2.2.2.2.1, h2.2.2.2.2⟩
  · intro m ps i j k hki hkj
    unfold collideStep
    rw [Function.update_noteq hkj, Function.update_noteq hki]

/-- Witness for C10: the pair pA, pB and a third untouched slot. -/
theorem handleCollision_frame_effect_witness :
    ((2 : Fin 3) ≠ 0) ∧ ((2 : Fin 3) ≠ 1) ∧
    (handleCollision pA pB).1.x = pA.x ∧
    collideStep 0 1 psTriple 2 = psTriple 2 := by
  exact ⟨by decide, by decide, (handleCollision_frame_effect.1 pA pB).1,
    handleCollision_frame_effect.2 3 psTriple 0 1 2 (by decide) (by decide)⟩

/-! ### Concrete evaluation of the two-particle frame -/

theorem psAB_zero : psAB 0 = pA :=
  if_pos rfl

theorem psAB_one : psAB 1 = pB :=
  if_neg (by decide)

theorem handleCollision_horiz (p q : Particle) (hy : q.y = p.y)
    (hne : q.x ≠ p.x) (hd1 : |q.x - p.x| < p.size + q.size) :
    handleCollision p q =
      ({ p with velocity :=
          calculateCollisionVelocity p.velocity q.velocity p.mass q.mass },
       { q with velocity :=
          calculateCollisionVelocity q.velocity p.velocity q.mass p.mass }) := by
  have hd : utils.distance p.x p.y q.x q.y = |q.x - p.x| := by
    rw [utils.distance, hy, sub_self]
    norm_num [Real.sqrt_sq_eq_abs]
  have habs : 0 < |q.x - p.x| := abs_pos.mpr (sub_ne_zero.mpr hne)
  unfold handleCollision
  rw [hd, if_neg ?hcond]
  case hcond =>
    rintro (h | h)
    · exact absurd h (not_le.mpr habs)
    · linarith
  rcases lt_or_gt_of_ne hne with hlt | hgt
  · have hang : collisionAngle p q = -Real.pi := by
      rw [collisionAngle, hy, sub_self, atan2_zero_neg (q.x - p.x) (by linarith)]
    rw [hang, neg_neg]
    simp only [rotate_neg_pi, rotate_pi]
    refine Prod.ext ?_ ?_ <;> ext <;>
      simp [calculateCollisionVelocity] <;> ring
  · have hang : collisionAngle p q = 0 := by
      rw [collisionAngle, hy, sub_self, atan2_zero_pos (q.x - p.x) (by linarith),
        neg_zero]
    rw [hang, neg_zero]
    simp only [rotate_zero]

theorem collAB : handleCollision pA pB =
    (⟨100, 100, 10, 20, 1, ⟨0, 0⟩⟩, ⟨110, 100, 10, 20, 1, ⟨1, 0⟩⟩) := by
  rw [handleCollision_horiz pA pB rfl (by norm_num [pA, pB])
    (by norm_num [pA, pB])]
  refine Prod.ext ?_ ?_ <;> ext <;>
    norm_num [calculateCollisionVelocity, pA, pB]

theorem collBA : handleCollision ⟨110, 100, 10, 20, 1, ⟨1, 0⟩⟩
      ⟨100, 100, 10, 20, 1, ⟨0, 0⟩⟩ =
    (⟨110, 100, 10, 20, 1, ⟨0, 0⟩⟩, ⟨100, 100, 10, 20, 1, ⟨1, 0⟩⟩) := by
  rw [handleCollision_horiz ⟨110, 100, 10, 20, 1, ⟨1, 0⟩⟩
    ⟨100, 100, 10, 20, 1, ⟨0, 0⟩⟩ rfl (by norm_num) (by norm_num)]
  refine Prod.ext ?_ ?_ <;> ext <;>
    norm_num [calculateCollisionVelocity]

theorem updateAB0 : update cW psAB 0 = psMid := by
  unfold update
  rw [show cW.mouse = none from rfl,
    show repelFromMouse none (psAB 0) = psAB 0 from rfl,
    Function.update_eq_self 0 psAB]
  have hcp : collidePhase 0 psAB =
      Function.update (Function.update psAB 0
          (⟨100, 100, 10, 20, 1, ⟨0, 0⟩⟩ : Particle)) 1
        (⟨110, 100, 10, 20, 1, ⟨1, 0⟩⟩ : Particle) := by
    unfold collidePhase
    rw [show List.finRange 2 = [0, 1] from by decide]
    simp only [List.foldl_cons, List.foldl_nil]
    rw [if_pos trivial, if_neg (by decide : ¬(1 : Fin 2) = 0)]
    unfold collideStep
    rw [psAB_zero, psAB_one, collAB]
  rw [hcp]
  have h0 : (Function.update (Function.update psAB 0
        (⟨100, 100, 10, 20, 1, ⟨0, 0⟩⟩ : Particle)) 1
        (⟨110, 100, 10, 20, 1, ⟨1, 0⟩⟩ : Particle)) 0 =
      ⟨100, 100, 10, 20, 1, ⟨0, 0⟩⟩ := by
    rw [Function.update_noteq (by decide : (0 : Fin 2) ≠ 1),
      Function.update_same]
  rw [h0]
  have hmv : updatePosition (⟨100, 100, 10, 20, 1, ⟨0, 0⟩⟩ : Particle) =
      ⟨100, 100, 10, 20, 1, ⟨0, 0⟩⟩ := by
    ext <;> norm_num [updatePosition]
  rw [hmv]
  have hwl : handleWallCollisions cW.containerWidth cW.containerHeight
      (⟨100, 100, 10, 20, 1, ⟨0, 0⟩⟩ : Particle) =
      ⟨100, 100, 10, 20, 1, ⟨0, 0⟩⟩ := by
    apply wall_noop <;> norm_num [cW]
  rw [hwl]
  funext i
  fin_cases i <;> simp [Function.update, psMid]

theorem psMid_zero : psMid 0 = ⟨100, 100, 10, 20, 1, ⟨0, 0⟩⟩ :=
  if_pos rfl

theorem psMid_one : psMid 1 = ⟨110, 100, 10, 20, 1, ⟨1, 0⟩⟩ :=
  if_neg (by decide)

theorem updateAB1 : update cW psMid 1 = psEnd := by
  unfold update
  rw [show cW.mouse = none from rfl,
    show repelFromMouse none (psMid 1) = psMid 1 from rfl,
    Function.update_eq_self 1 psMid]
  have hcp : collidePhase 1 psMid =
      Function.update (Function.update psMid 1
          (⟨110, 100, 10, 20, 1, ⟨0, 0⟩⟩ : Particle)) 0
        (⟨100, 100, 10, 20, 1, ⟨1, 0⟩⟩ : Particle) := by
    unfold collidePhase
    rw [show List.finRange 2 = [0, 1] from by decide]
    simp only [List.foldl_cons, List.foldl_nil]
    rw [if_pos trivial]
    unfold collideStep
    rw [psMid_zero, psMid_one, collBA]
    rw [if_neg (by decide : ¬(0 : Fin 2) = 1)]
  rw [hcp]
  have h1 : (Function.update (Function.update psMid 1
        (⟨110, 100, 10, 20, 1, ⟨0, 0⟩⟩ : Particle)) 0
        (⟨100, 100, 10, 20, 1, ⟨1, 0⟩⟩ : Particle)) 1 =
      ⟨110, 100, 10, 20, 1, ⟨0, 0⟩⟩ := by
    rw [Function.update_noteq (by decide : (1 : Fin 2) ≠ 0),
      Function.update_same]
  rw [h1]
  have hmv : updatePosition (⟨110, 100, 10, 20, 1, ⟨0, 0⟩⟩ : Particle) =
      ⟨110, 100, 10, 20, 1, ⟨0, 0⟩⟩ := by
    ext <;> norm_num [updatePosition]
  rw [hmv]
  have hwl : handleWallCollisions cW.containerWidth cW.containerHeight
      (⟨110, 100, 10, 20, 1, ⟨0, 0⟩⟩ : Particle) =
      ⟨110, 100, 10, 20, 1, ⟨0, 0⟩⟩ := by
    apply wall_noop <;> norm_num [cW]
  rw [hwl]
  funext i
  fin_cases i <;> simp [Function.update, psEnd]

theorem frameAB : frame cW psAB = psEnd := by
  unfold frame
  rw [show List.finRange 2 = [0, 1] from by decide, List.foldl_cons,
    List.foldl_cons, List.foldl_nil, updateAB0, updateAB1]

theorem stepPhasedAB : stepPhased cW psAB = psPhased := by
  unfold stepPhased
  rw [show (fun k => repelFromMouse cW.mouse (psAB k)) = psAB from
    funext fun k => rfl]
  rw [show List.finRange 2 = [0, 1] from by decide]
  simp only [List.foldl_cons, List.foldl_nil]
  rw [if_neg (by decide : ¬(0 : Fin 2) < 0), if_pos (by decide : (0 : Fin 2) < 1)]
  rw [if_neg (by decide : ¬(1 : Fin 2) < 0), if_neg (by decide : ¬(1 : Fin 2) < 1)]
  unfold collideStep
  rw [psAB_zero, psAB_one, collAB]
  dsimp only
  funext i
  fin_cases i
  · show handleWallCollisions cW.containerWidth cW.containerHeight
        (updatePosition ((Function.update (Function.update psAB 0
          (⟨100, 100, 10, 20, 1, ⟨0, 0⟩⟩ : Particle)) 1
          (⟨110, 100, 10, 20, 1, ⟨1, 0⟩⟩ : Particle)) 0)) = psPhased 0
    rw [Function.update_noteq (by decide : (0 : Fin 2) ≠ 1),
      Function.update_same]
    rw [show updatePosition (⟨100, 100, 10, 20, 1, ⟨0, 0⟩⟩ : Particle) =
        ⟨100, 100, 10, 20, 1, ⟨0, 0⟩⟩ from by ext <;> norm_num [updatePosition]]
    rw [show handleWallCollisions cW.containerWidth cW.containerHeight
          (⟨100, 100, 10, 20, 1, ⟨0, 0⟩⟩ : Particle) =
        ⟨100, 100, 10, 20, 1, ⟨0, 0⟩⟩ from by apply wall_noop <;> norm_num [cW]]
    rw [show psPhased 0 = ⟨100, 100, 10, 20, 1, ⟨0, 0⟩⟩ from if_pos rfl]
  · show handleWallCollisions cW.containerWidth cW.containerHeight
        (updatePosition ((Function.update (Function.update psAB 0
          (⟨100, 100, 10, 20, 1, ⟨0, 0⟩⟩ : Particle)) 1
          (⟨110, 100, 10, 20, 1, ⟨1, 0⟩⟩ : Particle)) 1)) = psPhased 1
    rw [Function.update_same]
    rw [show updatePosition (⟨110, 100, 10, 20, 1, ⟨1, 0⟩⟩ : Particle) =
        ⟨111, 100, 10, 20, 1, ⟨1, 0⟩⟩ from by ext <;> norm_num [updatePosition]]
    rw [show handleWallCollisions cW.containerWidth cW.containerHeight
          (⟨111, 100, 10, 20, 1, ⟨1, 0⟩⟩ : Particle) =
        ⟨111, 100, 10, 20, 1, ⟨1, 0⟩⟩ from by apply wall_noop <;> norm_num [cW]]
    rw [show psPhased 1 = ⟨111, 100, 10, 20, 1, ⟨1, 0⟩⟩ from if_neg (by decide)]

/-! ### C2 and C4: counterexamples and amended statements -/

/-- Counterexample to C2 as stated: for the overlapping equal-mass pair
pA, pB the frame does not double the single-resolution impulse on
particle 0 — the second (reversed) resolution reapplies the elastic
update to the already-updated velocities and here undoes the first, so
the post-frame x-velocity is 1, not the doubled-impulse value -1. -/
theorem frame_not_double_impulse :
    (frame cW psAB 0).velocity.x ≠
      (psAB 0).velocity.x +
        2 * ((handleCollision (psAB 0) (psAB 1)).1.velocity.x -
          (psAB 0).velocity.x) := by
  rw [frameAB, psAB_zero, psAB_one, collAB]
  rw [show psEnd 0 = ⟨100, 100, 10, 20, 1, ⟨1, 0⟩⟩ from if_pos rfl]
  norm_num [pA]

/-- Counterexample to C4 as stated: the source frame is not the
world-phased step the spec describes.  On the overlapping pair pA, pB the
phased step moves particle 1 to x = 111 while the source frame leaves it
at x = 110 (its velocity was taken back by the second, reversed
resolution before it integrated). -/
theorem frame_ne_stepPhased : frame cW psAB ≠ stepPhased cW psAB := by
  intro h
  have h1 := congrFun h 1
  rw [frameAB, stepPhasedAB] at h1
  have hx := congrArg Particle.x h1
  rw [show psEnd 1 = ⟨110, 100, 10, 20, 1, ⟨0, 0⟩⟩ from if_neg (by decide),
    show psPhased 1 = ⟨111, 100, 10, 20, 1, ⟨1, 0⟩⟩ from
      if_neg (by decide)] at hx
  norm_num at hx

/-- Claim C4 (amended): the source step is body-sequential, not
world-phased: each body in iteration order receives repulsion, resolves
collisions against every other body, is integrated and wall-resolved
before the next body is processed.  The frame equals this sequential
recursion on every input. -/
theorem frame_eq_stepSequential (env : Env) (ps : Fin n → Particle) :
    frame env ps = stepSequentialAll env ps := by
  unfold frame stepSequentialAll
  generalize List.finRange n = l
  induction l generalizing ps with
  | nil => rfl
  | cons i l ih =>
    rw [List.foldl_cons]
    exact ih (update env ps i)

/-! ### C2: the handleCollision invocation trace of one frame -/

theorem collidePhaseTraced_foldl (i : Fin n) (l : List (Fin n)) :
    ∀ (ps : Fin n → Particle) (acc : List (Fin n × Fin n)),
      l.foldl
        (fun st j =>
          if j = i then st else (collideStep i j st.1, st.2 ++ [(i, j)]))
        (ps, acc) =
      (l.foldl (fun ps j => if j = i then ps else collideStep i j ps) ps,
       acc ++ (l.filter (fun j => j ≠ i)).map (fun j => (i, j))) := by
  induction l with
  | nil => intro ps acc; simp
  | cons j l ih =>
    intro ps acc
    rw [List.foldl_cons, List.foldl_cons]
    rcases eq_or_ne j i with rfl | hne
    · rw [if_pos rfl, if_pos rfl, ih]
      have hfil : List.filter (fun j' => decide (j' ≠ j)) (j :: l) =
          List.filter (fun j' => decide (j' ≠ j)) l :=
        List.filter_cons_of_neg (by simp)
      rw [hfil]
    · rw [if_neg hne, if_neg hne, ih]
      dsimp only
      have hfil : List.filter (fun j' => decide (j' ≠ i)) (j :: l) =
          j :: List.filter (fun j' => decide (j' ≠ i)) l :=
        List.filter_cons_of_pos (by simp [hne])
      rw [hfil, List.map_cons]
      congr 1
      simp only [List.append_assoc, List.singleton_append]

theorem collidePhaseTraced_eq (i : Fin n) (ps : Fin n → Particle)
    (acc : List (Fin n × Fin n)) :
    collidePhaseTraced i (ps, acc) =
      (collidePhase i ps, acc ++ collisionCalls i) := by
  unfold collidePhaseTraced collidePhase collisionCalls
  exact collidePhaseTraced_foldl i (List.finRange n) ps acc

theorem updateTraced_eq (env : Env) (ps : Fin n → Particle)
    (acc : List (Fin n × Fin n)) (i : Fin n) :
    updateTraced env (ps, acc) i = (update env ps i, acc ++ collisionCalls i) := by
  unfold updateTraced
  rw [collidePhaseTraced_eq]
  rfl

theorem frameTraced_foldl (env : Env) (l : List (Fin n)) :
    ∀ (ps : Fin n → Particle) (acc : List (Fin n × Fin n)),
      l.foldl (updateTraced env) (ps, acc) =
        (l.foldl (update env) ps, acc ++ (l.map collisionCalls).flatten) := by
  induction l with
  | nil => intro ps acc; simp
  | cons i l ih =>
    intro ps acc
    rw [List.foldl_cons, List.foldl_cons, updateTraced_eq, ih]
    rw [List.map_cons, List.flatten_cons, List.append_assoc]

theorem frameTraced_eq (env : Env) (ps : Fin n → Particle) :
    frameTraced env ps =
      (frame env ps, ((List.finRange n).map collisionCalls).flatten) := by
  unfold frameTraced frame
  rw [frameTraced_foldl env (List.finRange n) ps []]
  rw [List.nil_append]

theorem count_collisionCalls (i a b : Fin n) :
    (collisionCalls i).count (a, b) = if a = i ∧ b ≠ i then 1 else 0 := by
  unfold collisionCalls
  rcases eq_or_ne a i with rfl | hne
  · rcases eq_or_ne b a with rfl | hb
    · rw [if_neg (by simp)]
      apply List.count_eq_zero.mpr
      intro hmem
      rw [List.mem_map] at hmem
      obtain ⟨j, hj, hjeq⟩ := hmem
      rw [List.mem_filter] at hj
      have hji : j = b := ((Prod.mk.injEq _ _ _ _).mp hjeq).2
      have hji' : j ≠ b := by simpa using hj.2
      exact hji' hji
    · rw [if_pos ⟨rfl, hb⟩]
      have hmap : ∀ L : List (Fin n),
          List.count ((a, b) : Fin n × Fin n)
            (L.map (fun j : Fin n => ((a, j) : Fin n × Fin n))) =
          List.count b L := by
        intro L
        induction L with
        | nil => rfl
        | cons c L ihc =>
          rw [List.map_cons, List.count_cons, List.count_cons, ihc]
          by_cases hcb : c = b
          · subst hcb
            simp
          · simp [beq_iff_eq, hcb]
      rw [hmap]
      have hcf : List.count b
          (List.filter (fun j => decide (j ≠ a)) (List.finRange n)) =
          List.count b (List.finRange n) :=
        List.count_filter (by simpa using hb)
      rw [hcf]
      exact List.count_eq_one_of_mem (List.nodup_finRange n) (List.mem_finRange b)
  · rw [if_neg fun hc => hne hc.1]
    apply List.count_eq_zero.mpr
    intro hmem
    rw [List.mem_map] at hmem
    obtain ⟨j, hj, hjeq⟩ := hmem
    have hia : i = a := ((Prod.mk.injEq _ _ _ _).mp hjeq).1
    exact hne hia.symm

theorem count_flatten_calls (a b : Fin n) :
    ∀ l : List (Fin n),
      ((l.map collisionCalls).flatten.count (a, b)) =
        l.count a * (if b ≠ a then 1 else 0) := by
  intro l
  induction l with
  | nil => simp
  | cons i l ih =>
    rw [List.map_cons, List.flatten_cons, List.count_append, ih,
      count_collisionCalls, List.count_cons]
    by_cases hia : i = a
    · subst hia
      by_cases hb : b = i
      · subst hb
        simp
      · have hb' : b ≠ i := hb
        rw [if_pos ⟨rfl, hb'⟩, if_pos hb', if_pos (beq_self_eq_true i)]
        ring
    · have hia' : ¬(a = i ∧ b ≠ i) := fun hc => hia hc.1.symm
      rw [if_neg hia', if_neg (show ¬((i == a) = true) from by simpa using hia)]
      ring

/-- Claim C2 (amended): during one frame handleCollision is invoked
exactly once for every ordered pair (A, B) of distinct particles — so
each unordered pair is resolved (up to the overlap guard) twice per
frame, once in each direction — but the second invocation operates on the
already-updated velocities and does not in general double the impulse.
The instrumented frame records the invocations and computes the same
world state as the plain frame. -/
theorem frame_collision_invocations (env : Env) (ps : Fin n → Particle) :
    (frameTraced env ps).1 = frame env ps ∧
    ∀ a b : Fin n,
      (frameTraced env ps).2.count (a, b) = if a = b then 0 else 1 := by
  rw [frameTraced_eq]
  refine ⟨rfl, fun a b => ?_⟩
  dsimp only
  rw [count_flatten_calls a b (List.finRange n),
    List.count_eq_one_of_mem (List.nodup_finRange n) (List.mem_finRange a)]
  rcases eq_or_ne a b with rfl | hab
  · simp
  · simp [hab, Ne.symm hab]

/-! ### C9: initialization never validates the configuration -/

theorem createParticlesGo_length (cfg : Config) (W H : ℝ) (rng : ℕ → ℝ) :
    ∀ (m : ℕ) (acc : List Particle) (k : ℕ),
      (createParticlesGo cfg W H rng m acc k).length = acc.length + m := by
  intro m
  induction m with
  | zero => intro acc k; rfl
  | succ m ih =>
    intro acc k
    rw [createParticlesGo, ih, List.length_append]
    simp
    omega

/-- Claim C9 (amended): initialization performs no configuration
validation at all: for every configuration — valid or not — init runs the
creation loop to completion and returns exactly PARTICLE_COUNT particles;
there is no failure path. -/
theorem init_creates_count_particles (cfg : Config) (W H : ℝ) (rng : ℕ → ℝ) :
    (init cfg W H rng).length = cfg.PARTICLE_COUNT := by
  unfold init createParticles
  rw [createParticlesGo_length]
  simp

/-- Counterexample to C9 as stated: with the invalid configuration
MIN_SIZE = 55 > MAX_SIZE = 25 (and count 1), init does not fail fast with
a configuration error — it proceeds and creates the particle. -/
theorem init_accepts_invalid_config :
    badCfg.MIN_SIZE > badCfg.MAX_SIZE ∧
    (init badCfg 400 300 rngHalf).length = 1 := by
  constructor
  · norm_num [badCfg]
  · show (createParticlesGo badCfg 400 300 rngHalf
      badCfg.PARTICLE_COUNT [] 0).length = 1
    rw [createParticlesGo_length]
    rfl

end HeroShape

end
